import Mathlib

/-!
Verification of the date-normalization and CSV-import pipeline of the
kakeibo household-ledger application (src/kakeibo.py).

Strings are modelled as `List Char`.  Python regular-expression digit classes
are modelled on their ASCII fragment (all inputs exercised here are ASCII
digits or the fixed Japanese era characters).  Fallible Python calls are
modelled with `Option` and `Except`.  The mutable SQLite table is modelled by
explicit state passing of a `List Entry`.
-/

namespace Kakeibo

/-- ASCII decimal digit test; models the character class covering the digits
0 to 9 that every pattern in `convert_date_format` uses. -/
def isDigitCh (c : Char) : Bool := 48 ≤ c.toNat && c.toNat ≤ 57

/-- Numeric value of a digit character, models `int()` applied to one digit. -/
def dval (c : Char) : Nat := c.toNat - 48

/-- Whitespace test used by the Python `str.strip` call (ASCII fragment). -/
def isSpace (c : Char) : Bool :=
  c = ' ' || c = '\t' || c = '\n' || c = '\r' ||
  c = Char.ofNat 11 || c = Char.ofNat 12

/-- Models `str.strip`: removes leading and trailing whitespace. -/
def pyStrip (s : List Char) : List Char :=
  ((s.dropWhile isSpace).reverse.dropWhile isSpace).reverse

/-- Digit character for a value; defined through the residue modulo ten so it
is total.  Models one output digit of a zero-padded format directive. -/
def digitChar (n : Nat) : Char := Char.ofNat (48 + n % 10)

/-- Two zero-padded decimal digits; models the `:02d` format directive on the
values the matchers produce (always below one hundred). -/
def pad2 (n : Nat) : List Char := [digitChar (n / 10), digitChar n]

/-- Four zero-padded decimal digits; models the `:04d` format directive on the
values the matchers produce (always below ten thousand). -/
def pad4 (n : Nat) : List Char :=
  [digitChar (n / 1000), digitChar (n / 100), digitChar (n / 10), digitChar n]

/-- Models the output f-string of `convert_date_format`, namely
`f"{year:04d}-{month:02d}-{day:02d}"`. -/
def fmtDate (y m d : Nat) : List Char :=
  pad4 y ++ ('-' :: (pad2 m ++ ('-' :: pad2 d)))

/-- Parse one digit character. -/
def p1 : List Char → Option (Nat × List Char)
  | c :: r => if isDigitCh c then some (dval c, r) else none
  | [] => none

/-- Parse exactly two digit characters; models a two-digit group. -/
def p2 (s : List Char) : Option (Nat × List Char) :=
  (p1 s).bind fun a =>
  (p1 a.2).map fun b => (10 * a.1 + b.1, b.2)

/-- Parse exactly four digit characters; models a four-digit group. -/
def p4 (s : List Char) : Option (Nat × List Char) :=
  (p1 s).bind fun a =>
  (p1 a.2).bind fun b =>
  (p1 b.2).bind fun c =>
  (p1 c.2).map fun d => (1000 * a.1 + 100 * b.1 + 10 * c.1 + d.1, d.2)

/-- Parse one or two digit characters, greedily; models the one-or-two digit
group.  The groups of `convert_date_format` are each followed by a literal
separator or end the pattern, so greedy matching without backtracking agrees
with the regular-expression semantics. -/
def p12 (s : List Char) : Option (Nat × List Char) :=
  (p1 s).bind fun a =>
    match p1 a.2 with
    | some b => some (10 * a.1 + b.1, b.2)
    | none => some (a.1, a.2)

/-- Expect one literal character. -/
def expectCh (c : Char) : List Char → Option (List Char)
  | x :: r => if x = c then some r else none
  | [] => none

/-- Models the anchored full match of the canonical pattern: four digits,
hyphen, two digits, hyphen, two digits, end of string. -/
def canonicalShape (s : List Char) : Bool :=
  (((p4 s).bind fun yr =>
    (expectCh '-' yr.2).bind fun r2 =>
    (p2 r2).bind fun mr =>
    (expectCh '-' mr.2).bind fun r4 =>
    (p2 r4).map fun dr => dr.2.isEmpty).getD false)

/-- Boolean test whether `pat` occurs at the start of `s`. -/
def leadsWith : List Char → List Char → Bool
  | [], _ => true
  | _ :: _, [] => false
  | a :: as, b :: bs => a == b && leadsWith as bs

/-- Boolean substring test; models the Python `in` operator on strings. -/
def containsRun (pat : List Char) : List Char → Bool
  | [] => leadsWith pat []
  | c :: t => leadsWith pat (c :: t) || containsRun pat t

/-- Models `date_str.startswith` applied to the single letter R. -/
def headIsR : List Char → Bool
  | c :: _ => c = 'R'
  | [] => false

/-- Boolean membership of a single character; models the Python `in` operator
with a one-character needle. -/
def elemCh (c : Char) (s : List Char) : Bool := s.any fun x => x == c

/-- Shared tail of the four date patterns after the year group: a separator,
a one-or-two digit month, a second separator, a one-or-two digit day, and an
optional final literal.  Trailing characters after the match are ignored,
exactly as `re.match` anchors only at the start of the string. -/
def pMD (sep1 sep2 : Char) (fin : Option Char) (r : List Char) :
    Option (Nat × Nat) :=
  (expectCh sep1 r).bind fun r1 =>
  (p12 r1).bind fun m =>
  (expectCh sep2 m.2).bind fun r3 =>
  (p12 r3).bind fun d =>
  match fin with
  | none => some (m.1, d.1)
  | some c => (expectCh c d.2).map fun _ => (m.1, d.1)

/-- Models the Reiwa long-form pattern: the two era characters, a one-or-two
digit year, then year-month-day kanji separators. -/
def matchReiwaLong (s : List Char) : Option (Nat × Nat × Nat) :=
  (expectCh '令' s).bind fun r0 =>
  (expectCh '和' r0).bind fun r =>
  (p12 r).bind fun y =>
  (pMD '年' '月' (some '日') y.2).map fun md => (y.1, md.1, md.2)

/-- Models the Reiwa short-form pattern: the letter R, a one-or-two digit
year, then slash separators. -/
def matchRShort (s : List Char) : Option (Nat × Nat × Nat) :=
  (expectCh 'R' s).bind fun r =>
  (p12 r).bind fun y =>
  (pMD '/' '/' none y.2).map fun md => (y.1, md.1, md.2)

/-- Models the Gregorian kanji pattern: a four digit year then kanji
separators. -/
def matchKanji (s : List Char) : Option (Nat × Nat × Nat) :=
  (p4 s).bind fun y =>
  (pMD '年' '月' (some '日') y.2).map fun md => (y.1, md.1, md.2)

/-- Models the Gregorian slash pattern: a four digit year then slash
separators. -/
def matchSlash (s : List Char) : Option (Nat × Nat × Nat) :=
  (p4 s).bind fun y =>
  (pMD '/' '/' none y.2).map fun md => (y.1, md.1, md.2)

/-- Models the external generic free-text date parser that
`convert_date_format` falls back to (`dateutil.parser.parse`, third-party
code outside this repository).  The pipeline relies on it only through its
failure behaviour: unparsable text makes it raise, and the caller converts
the exception into the no-value result.  It is modelled as raising on every
input; no theorem below depends on any input it would accept. -/
def dateutilParse (_s : List Char) : Except Unit (Nat × Nat × Nat) :=
  .error ()

/-- Models `parsed_date.strftime` on the fallback result (zero-padded
year-month-day). -/
def strfDate (y m d : Nat) : List Char := fmtDate y m d

/-- Branch one of the try block: the Reiwa long form, guarded by a substring
test for the era characters; the year is offset by 2018. -/
def branchReiwaLong (s : List Char) : Option (List Char) :=
  if containsRun ['令', '和'] s then
    (matchReiwaLong s).map fun t => fmtDate (t.1 + 2018) t.2.1 t.2.2
  else none

/-- Branch two of the try block: the Reiwa short form, guarded by a
starts-with test for the letter R; the year is offset by 2018. -/
def branchRShort (s : List Char) : Option (List Char) :=
  if headIsR s then
    (matchRShort s).map fun t => fmtDate (t.1 + 2018) t.2.1 t.2.2
  else none

/-- Branch three of the try block: the Gregorian kanji form, guarded by
membership of the three kanji separators. -/
def branchKanji (s : List Char) : Option (List Char) :=
  if elemCh '年' s && elemCh '月' s && elemCh '日' s then
    (matchKanji s).map fun t => fmtDate t.1 t.2.1 t.2.2
  else none

/-- Branch four of the try block: the Gregorian slash form, guarded by
membership of a slash. -/
def branchSlash (s : List Char) : Option (List Char) :=
  if elemCh '/' s then
    (matchSlash s).map fun t => fmtDate t.1 t.2.1 t.2.2
  else none

/-- Models the try block of `convert_date_format`: the four guarded patterns
in order, each falling through when its guard or its match fails, then the
generic fallback parser, whose exception propagates out of the block. -/
def convertTry (s : List Char) : Except Unit (List Char) :=
  match branchReiwaLong s with
  | some t => .ok t
  | none =>
    match branchRShort s with
    | some t => .ok t
    | none =>
      match branchKanji s with
      | some t => .ok t
      | none =>
        match branchSlash s with
        | some t => .ok t
        | none =>
          match dateutilParse s with
          | .ok (y, m, d) => .ok (strfDate y m d)
          | .error e => .error e

/-- Body of `convert_date_format` on the stripped string: the anchored
canonical check returns the input unchanged, otherwise the try block runs and
any exception it raises is caught and turned into the no-value result. -/
def convertBody (s : List Char) : Option (List Char) :=
  if canonicalShape s then some s
  else
    match convertTry s with
    | .ok t => some t
    | .error _ => none

/-- Fuel-driven decimal digits of a natural number (most significant first). -/
def natStrAux : Nat → Nat → List Char → List Char
  | 0, _, acc => acc
  | fuel + 1, n, acc =>
    if n < 10 then digitChar n :: acc
    else natStrAux fuel (n / 10) (digitChar (n % 10) :: acc)

/-- Decimal digits of a natural number. -/
def natStr (n : Nat) : List Char := natStrAux (n + 1) n []

/-- Decimal digits of an integer with an optional sign. -/
def intStr (i : Int) : List Char :=
  if i < 0 then '-' :: natStr i.natAbs else natStr i.natAbs

/-- Exact decimal number, the value `man * 10 ^ (-exp)`: models the Python
floats the pipeline produces and compares.  Every numeric value in the
pipeline enters through the decimal parser or a literal, so exact decimals
model them faithfully; equality is structural. -/
structure Dec where
  man : Int
  exp : Nat
deriving DecidableEq, Repr

/-- Models `str` applied to a Python float: integral values print with a
trailing `.0`, fractional values with the decimal point inserted.  A
mantissa with trailing fractional zeros would print them, a deviation from
the shortest-representation printing of Python; no theorem below evaluates
this function on such a value. -/
def decStr (q : Dec) : List Char :=
  if q.exp = 0 then intStr q.man ++ ['.', '0']
  else
    (if q.man < 0 then ['-'] else []) ++
    (let ds := natStr q.man.natAbs
     let ds2 := List.replicate (q.exp + 1 - ds.length) '0' ++ ds
     ds2.take (ds2.length - q.exp) ++ '.' :: ds2.drop (ds2.length - q.exp))

/-- Cell of a pandas data frame read from CSV: a missing value, a text value,
or a numeric value. -/
inductive Cell where
  | na : Cell
  | str : List Char → Cell
  | num : Dec → Cell
deriving DecidableEq, Repr

/-- Models `convert_date_format` (src/kakeibo.py lines 164 to 225).  A
missing value or the empty string (both falsy in Python) give the no-value
result; otherwise the string form of the input is stripped and handed to the
pattern cascade.  A numeric cell equal to zero is falsy as well. -/
def convert_date_format : Cell → Option (List Char)
  | Cell.na => none
  | Cell.str s => if s = [] then none else convertBody (pyStrip s)
  | Cell.num q => if q.man = 0 then none else convertBody (pyStrip (decStr q))

/-- Models `float()` and elementwise `pd.to_numeric` on text: optional sign,
integer digits, optional fractional digits, surrounded by optional
whitespace, with at least one digit overall.  Exponent notation and the
special float words are outside the fragment the pipeline exercises. -/
def parseNum (s0 : List Char) : Option Dec :=
  let s := pyStrip s0
  let sp : Int × List Char :=
    match s with
    | [] => (1, [])
    | c :: r => if c = '-' then (-1, r) else if c = '+' then (1, r) else (1, c :: r)
  let sign := sp.1
  let s1 := sp.2
  let ip := s1.takeWhile isDigitCh
  let r1 := s1.dropWhile isDigitCh
  let ival : Nat := ip.foldl (fun a c => 10 * a + dval c) 0
  match r1 with
  | [] => if ip = [] then none else some { man := sign * ival, exp := 0 }
  | c :: r2 =>
    if c = '.' then
      let fp := r2.takeWhile isDigitCh
      let r3 := r2.dropWhile isDigitCh
      let fval : Nat := fp.foldl (fun a c => 10 * a + dval c) 0
      if r3 = [] && !(ip = [] && fp = []) then
        some { man := sign * (ival * 10 ^ fp.length + fval), exp := fp.length }
      else none
    else none

/-- Elementwise action of `pd.to_numeric(column, errors to coerce)`: numbers
stay, missing values stay missing, text becomes its numeric value or missing
when it does not parse. -/
def coerceCell : Cell → Cell
  | Cell.na => Cell.na
  | Cell.num q => Cell.num q
  | Cell.str s =>
    match parseNum s with
    | some q => Cell.num q
    | none => Cell.na

/-- Required column names of the import schema. -/
inductive Col where
  | date : Col
  | category : Col
  | subject : Col
  | amount : Col
deriving DecidableEq, Repr

/-- Row of the tabular batch: one cell per required column. -/
structure Row where
  date : Cell
  category : Cell
  subject : Cell
  amount : Cell
deriving DecidableEq, Repr

/-- Tabular batch handed to the validator: which required columns are present
in the file, and the rows.  Cells of absent columns are never read. -/
structure Frame where
  hasDate : Bool
  hasCategory : Bool
  hasSubject : Bool
  hasAmount : Bool
  rows : List Row
deriving DecidableEq, Repr

/-- Column presence test. -/
def hasCol (f : Frame) : Col → Bool
  | Col.date => f.hasDate
  | Col.category => f.hasCategory
  | Col.subject => f.hasSubject
  | Col.amount => f.hasAmount

/-- The required columns, in the order the source lists them. -/
def requiredColumns : List Col := [Col.date, Col.category, Col.subject, Col.amount]

/-- Missing required columns, in order. -/
def missingColumns (f : Frame) : List Col :=
  requiredColumns.filter fun c => !hasCol f c

/-- Structured content of the error and warning strings that
`validate_csv_format` accumulates. -/
inductive Msg where
  | missingCols : List Col → Msg
  | nonNumericAmount : Msg
  | invalidDates : List (Nat × Cell) → Msg
deriving DecidableEq, Repr

/-- Result dictionary of `validate_csv_format`. -/
structure VResult where
  valid : Bool
  errors : List Msg
  warnings : List Msg
deriving DecidableEq, Repr

/-- Models `validate_csv_format` (src/kakeibo.py lines 368 to 409).  The
Python function assigns the coerced numeric column back into the amount
column of its argument, mutating the batch; the mutation is modelled by
returning the updated frame alongside the result. -/
def validate_csv_format (f : Frame) : VResult × Frame :=
  let missing := missingColumns f
  let valid := missing.isEmpty
  let errors := if missing.isEmpty then [] else [Msg.missingCols missing]
  let f1 :=
    if f.hasAmount then
      { f with rows := f.rows.map fun r => { r with amount := coerceCell r.amount } }
    else f
  let amountWarns :=
    if f.hasAmount && f1.rows.any (fun r => r.amount == Cell.na) then
      [Msg.nonNumericAmount]
    else []
  let invalid :=
    if f.hasDate then
      (f1.rows.enum.filter fun p => convert_date_format p.2.date == none).map
        fun p => (p.1 + 1, p.2.date)
    else []
  let dateWarns := if invalid.isEmpty then [] else [Msg.invalidDates (invalid.take 5)]
  ({ valid := valid, errors := errors, warnings := amountWarns ++ dateWarns }, f1)

/-- Persisted ledger record (table kakeibo, identity column left to the
store).  Every column of the table carries a NOT NULL constraint, so a
persisted amount is always an actual number. -/
structure Entry where
  date : List Char
  category : List Char
  subject : List Char
  amount : Dec
deriving DecidableEq, Repr

/-- Failure of one parameterized insert. -/
inductive InsErr where
  | notNullAmount : InsErr
deriving DecidableEq, Repr

/-- Reason a row of the batch was not imported, as recorded in the error
details of `import_from_csv`: the date-format branch, the amount-format
branch, or the generic per-row exception handler. -/
inductive RowErr where
  | dateFormat : Cell → RowErr
  | amountFormat : Cell → RowErr
  | insertFailed : InsErr → RowErr
deriving DecidableEq, Repr

/-- Models `float(row[amount])` after validation: a missing value is the
float NaN, which `float` accepts, so only a text cell can raise here. -/
def floatCell : Cell → Except Unit (Option Dec)
  | Cell.na => .ok none
  | Cell.num q => .ok (some q)
  | Cell.str s =>
    match parseNum s with
    | some q => .ok (some q)
    | none => .error ()

/-- Models `str()` applied to a cell: missing values print as the word nan. -/
def cellToStr : Cell → List Char
  | Cell.na => ['n', 'a', 'n']
  | Cell.str s => s
  | Cell.num q => decStr q

/-- Models one parameterized insert into the kakeibo table.  SQLite has no
representation for the float NaN and stores it as NULL, so inserting a NaN
amount violates the NOT NULL constraint on the amount column and the insert
raises; any other amount is appended. -/
def insertEntry (d c s : List Char) : Option Dec → Except InsErr Entry
  | none => .error InsErr.notNullAmount
  | some q => .ok { date := d, category := c, subject := s, amount := q }

/-- Per-row loop of `import_from_csv` (src/kakeibo.py lines 469 to 497),
with the 0-based row counter and the table threaded through.  Returns the
entries inserted in order, the rejected rows as 1-based index and reason
pairs, and the final table. -/
def importLoop : List Row → Nat → List Entry →
    List Entry × List (Nat × RowErr) × List Entry
  | [], _, table => ([], [], table)
  | r :: rest, i, table =>
    match convert_date_format r.date with
    | none =>
      let p := importLoop rest (i + 1) table
      (p.1, (i + 1, RowErr.dateFormat r.date) :: p.2.1, p.2.2)
    | some d =>
      match floatCell r.amount with
      | .error _ =>
        let p := importLoop rest (i + 1) table
        (p.1, (i + 1, RowErr.amountFormat r.amount) :: p.2.1, p.2.2)
      | .ok a =>
        let c := pyStrip (cellToStr r.category)
        let s := pyStrip (cellToStr r.subject)
        match insertEntry d c s a with
        | .error e =>
          let p := importLoop rest (i + 1) table
          (p.1, (i + 1, RowErr.insertFailed e) :: p.2.1, p.2.2)
        | .ok e =>
          let p := importLoop rest (i + 1) (table ++ [e])
          (e :: p.1, p.2.1, p.2.2)

/-- Outcome of one import call: the boolean the function returns, the rows
that were persisted, the per-row rejections, the batch-level structural
errors, and the batch-level warnings. -/
structure ImportResult where
  ok : Bool
  accepted : List Entry
  rejected : List (Nat × RowErr)
  structuralErrors : List Msg
  warnings : List Msg
deriving DecidableEq, Repr

/-- Models `import_from_csv` (src/kakeibo.py lines 433 to 520) after the file
has been decoded and read into a batch: validation runs first (coercing the
amount column in place); a failed schema check aborts the whole batch before
any row is processed; otherwise every row is processed in order and each
accepted row is inserted into the table within this very call. -/
def import_from_csv (f : Frame) (table : List Entry) :
    ImportResult × List Entry :=
  let vp := validate_csv_format f
  if vp.1.valid then
    let lp := importLoop vp.2.rows 0 table
    ({ ok := true, accepted := lp.1, rejected := lp.2.1,
       structuralErrors := [], warnings := vp.1.warnings }, lp.2.2)
  else
    ({ ok := false, accepted := [], rejected := [],
       structuralErrors := vp.1.errors, warnings := vp.1.warnings }, table)

/-- Text fields that the CSV reader treats as missing values (the default
sentinel list of pandas, restricted to the members this development needs;
every member has length at most eight). -/
def naStrings : List (List Char) :=
  [[], ['n', 'a', 'n'], ['N', 'a', 'N'], ['N', 'A', 'N'],
   ['N', 'U', 'L', 'L'], ['n', 'u', 'l', 'l'], ['N', 'A'],
   ['N', '/', 'A'], ['n', '/', 'a'], ['N', 'o', 'n', 'e'],
   ['<', 'N', 'A', '>']]

/-- Column-level dtype inference of the CSV reader: a column is read back
numerically when every field is a missing-value sentinel or parses as a
number. -/
def colIsNumeric (vals : List (List Char)) : Bool :=
  vals.all fun s => decide (s ∈ naStrings) || (parseNum s).isSome

/-- Field-level result of writing a text field with `to_csv` and reading it
back with `pd.read_csv`: sentinel text becomes missing, and fields of an
all-numeric column come back as numbers. -/
def inferCell (numericCol : Bool) (s : List Char) : Cell :=
  if s ∈ naStrings then Cell.na
  else if numericCol then
    match parseNum s with
    | some q => Cell.num q
    | none => Cell.str s
  else Cell.str s

/-- Models `export_to_csv` (a SELECT of all rows written with `to_csv`)
composed with the read in `import_from_csv` (`pd.read_csv` with dtype
inference): text fields round-trip as written unless they are sentinel text
or belong to an all-numeric column, and the REAL amount column is written
and read back as the same numbers.  The identity column is also exported but
the importer never reads it.  The export itself refuses an empty table. -/
def exportImportFrame (tbl : List Entry) : Frame :=
  let dN := colIsNumeric (tbl.map Entry.date)
  let cN := colIsNumeric (tbl.map Entry.category)
  let sN := colIsNumeric (tbl.map Entry.subject)
  { hasDate := true, hasCategory := true, hasSubject := true, hasAmount := true,
    rows := tbl.map fun e =>
      { date := inferCell dN e.date,
        category := inferCell cN e.category,
        subject := inferCell sN e.subject,
        amount := Cell.num e.amount } }

/-- Calendar validity of a canonical date string, following the definition in
the specification: the month lies between 1 and 12 and the day between 1 and
the length of that month, with Gregorian leap years. -/
def isLeap (y : Nat) : Bool := (y % 4 = 0 && y % 100 ≠ 0) || y % 400 = 0

/-- Days of a month. -/
def daysInMonth (y m : Nat) : Nat :=
  if m = 2 then (if isLeap y then 29 else 28)
  else if m = 4 || m = 6 || m = 9 || m = 11 then 30
  else 31

/-- Decides whether a string is a canonical and calendar-valid date. -/
def calendarValid (s : List Char) : Bool :=
  (((p4 s).bind fun yr =>
    (expectCh '-' yr.2).bind fun r2 =>
    (p2 r2).bind fun mr =>
    (expectCh '-' mr.2).bind fun r4 =>
    (p2 r4).map fun dr =>
      dr.2.isEmpty && decide (1 ≤ mr.1) && decide (mr.1 ≤ 12) &&
      decide (1 ≤ dr.1) && decide (dr.1 ≤ daysInMonth yr.1 mr.1)).getD false)

/-- Unpadded decimal literal of a value below one hundred, as it appears in
the one-or-two digit groups of the input notations. -/
def dec2 (n : Nat) : List Char :=
  if n < 10 then [digitChar n] else [digitChar (n / 10), digitChar n]

/-- Input in the Reiwa long form with arbitrary trailing characters. -/
def mkReiwaLongT (y m d : Nat) (rest : List Char) : List Char :=
  '令' :: '和' :: (dec2 y ++ '年' :: (dec2 m ++ '月' :: (dec2 d ++ '日' :: rest)))

/-- Input in the Reiwa short form with arbitrary trailing characters. -/
def mkRShortT (y m d : Nat) (rest : List Char) : List Char :=
  'R' :: (dec2 y ++ '/' :: (dec2 m ++ '/' :: (dec2 d ++ rest)))

/-- Input in the Gregorian kanji form with arbitrary trailing characters. -/
def mkKanjiT (y m d : Nat) (rest : List Char) : List Char :=
  pad4 y ++ '年' :: (dec2 m ++ '月' :: (dec2 d ++ '日' :: rest))

/-- Input in the Gregorian slash form with arbitrary trailing characters. -/
def mkSlashT (y m d : Nat) (rest : List Char) : List Char :=
  pad4 y ++ '/' :: (dec2 m ++ '/' :: (dec2 d ++ rest))

/-- Input in the Reiwa long form, exactly. -/
def mkReiwaLong (y m d : Nat) : List Char := mkReiwaLongT y m d []

/-- Input in the Reiwa short form, exactly. -/
def mkRShort (y m d : Nat) : List Char := mkRShortT y m d []

/-- Input in the Gregorian kanji form, exactly. -/
def mkKanji (y m d : Nat) : List Char := mkKanjiT y m d []

/-- Input in the Gregorian slash form, exactly. -/
def mkSlash (y m d : Nat) : List Char := mkSlashT y m d []

/-- Group boundary: the continuation does not begin with a digit, so a greedy
one-or-two digit group ending right before it matches exactly the intended
digits. -/
def boundaryB : List Char → Bool
  | [] => true
  | c :: _ => !isDigitCh c

/-- Text field that survives the CSV round trip unchanged: it is untouched by
whitespace trimming, it is not a missing-value sentinel, and it does not read
back as a number. -/
def goodField (s : List Char) : Prop :=
  pyStrip s = s ∧ s ∉ naStrings ∧ parseNum s = none

/-- Ledger entry whose export survives re-import unchanged: canonical date
and round-trip safe text fields. -/
def goodEntry (e : Entry) : Prop :=
  canonicalShape e.date = true ∧ goodField e.category ∧ goodField e.subject

instance (s : List Char) : Decidable (goodField s) := by
  unfold goodField
  infer_instance

instance (e : Entry) : Decidable (goodEntry e) := by
  unfold goodEntry
  infer_instance

/-! ### Character-level facts -/

lemma dval_lt_of_digit {c : Char} (h : isDigitCh c = true) : dval c < 10 := by
  simp only [isDigitCh, Bool.and_eq_true, decide_eq_true_eq] at h
  simp only [dval]
  omega

lemma not_space_of_digit {c : Char} (h : isDigitCh c = true) : isSpace c = false := by
  simp only [isDigitCh, Bool.and_eq_true, decide_eq_true_eq] at h
  simp only [isSpace, Bool.or_eq_false_iff, decide_eq_false_iff_not]
  refine ⟨⟨⟨⟨⟨?_, ?_⟩, ?_⟩, ?_⟩, ?_⟩, ?_⟩ <;>
    · intro hc
      subst hc
      revert h
      decide

lemma digitChar_isDigit (n : Nat) : isDigitCh (digitChar n) = true := by
  have h10 : n % 10 < 10 := Nat.mod_lt _ (by norm_num)
  simp only [digitChar]
  generalize n % 10 = k at h10
  interval_cases k <;> decide

lemma dval_digitChar (n : Nat) : dval (digitChar n) = n % 10 := by
  have h10 : n % 10 < 10 := Nat.mod_lt _ (by norm_num)
  simp only [digitChar]
  generalize n % 10 = k at h10
  interval_cases k <;> decide

lemma digitChar_ne {c : Char} (n : Nat) (h : isDigitCh c = false) : digitChar n ≠ c := by
  intro he
  rw [← he, digitChar_isDigit n] at h
  exact absurd h (by decide)

lemma not_space_digitChar (n : Nat) : isSpace (digitChar n) = false :=
  not_space_of_digit (digitChar_isDigit n)

/-! ### Strip facts -/

lemma dropWhile_space_eq_self {s : List Char} (h : ∀ c ∈ s, isSpace c = false) :
    s.dropWhile isSpace = s := by
  cases s with
  | nil => rfl
  | cons a t =>
    rw [List.dropWhile_cons, h a (List.mem_cons_self a t)]
    simp

lemma pyStrip_no_space {s : List Char} (h : ∀ c ∈ s, isSpace c = false) :
    pyStrip s = s := by
  unfold pyStrip
  rw [dropWhile_space_eq_self h]
  rw [dropWhile_space_eq_self (fun c hc => h c (List.mem_reverse.mp hc))]
  exact List.reverse_reverse s

lemma dropWhile_space_nil {s : List Char} (h : ∀ c ∈ s, isSpace c = true) :
    s.dropWhile isSpace = [] := by
  induction s with
  | nil => rfl
  | cons a t ih =>
    rw [List.dropWhile_cons, h a (List.mem_cons_self a t)]
    simp only [if_true]
    exact ih fun c hc => h c (List.mem_cons_of_mem a hc)

lemma pyStrip_all_space {s : List Char} (h : ∀ c ∈ s, isSpace c = true) :
    pyStrip s = [] := by
  unfold pyStrip
  rw [dropWhile_space_nil h]
  rfl

/-! ### Parser inversion and bounds -/

lemma p1_inv {s : List Char} {n : Nat} {r : List Char} (h : p1 s = some (n, r)) :
    ∃ a, s = a :: r ∧ isDigitCh a = true ∧ n = dval a := by
  cases s with
  | nil => simp [p1] at h
  | cons a t =>
    by_cases hd : isDigitCh a
    · simp only [p1, hd, if_true, Option.some_inj, Prod.mk.injEq] at h
      exact ⟨a, by rw [h.2], hd, h.1.symm⟩
    · simp [p1, hd] at h

lemma p1_digitChar (n : Nat) (r : List Char) :
    p1 (digitChar n :: r) = some (n % 10, r) := by
  simp [p1, digitChar_isDigit n, dval_digitChar n]

lemma p1_nondigit {c : Char} (h : isDigitCh c = false) (r : List Char) :
    p1 (c :: r) = none := by
  simp [p1, h]

lemma p2_inv {s : List Char} {n : Nat} {r : List Char} (h : p2 s = some (n, r)) :
    ∃ a b, s = a :: b :: r ∧ isDigitCh a = true ∧ isDigitCh b = true ∧
      n = 10 * dval a + dval b := by
  unfold p2 at h
  cases hp : p1 s with
  | none => rw [hp] at h; simp at h
  | some v =>
    obtain ⟨a1, r1⟩ := v
    rw [hp] at h
    simp only [Option.some_bind] at h
    cases hq : p1 r1 with
    | none => rw [hq] at h; simp at h
    | some w =>
      obtain ⟨b1, r2⟩ := w
      rw [hq] at h
      simp only [Option.map_some', Option.some_inj, Prod.mk.injEq] at h
      obtain ⟨a, hsa, hda, hva⟩ := p1_inv hp
      obtain ⟨b, hsb, hdb, hvb⟩ := p1_inv hq
      refine ⟨a, b, ?_, hda, hdb, ?_⟩
      · rw [hsa, hsb, h.2]
      · omega

lemma p4_inv {s : List Char} {n : Nat} {r : List Char} (h : p4 s = some (n, r)) :
    ∃ a b c d, s = a :: b :: c :: d :: r ∧ isDigitCh a = true ∧ isDigitCh b = true ∧
      isDigitCh c = true ∧ isDigitCh d = true ∧
      n = 1000 * dval a + 100 * dval b + 10 * dval c + dval d := by
  unfold p4 at h
  cases hp1 : p1 s with
  | none => rw [hp1] at h; simp at h
  | some v1 =>
    obtain ⟨a1, r1⟩ := v1
    rw [hp1] at h
    simp only [Option.some_bind] at h
    cases hp2 : p1 r1 with
    | none => rw [hp2] at h; simp at h
    | some v2 =>
      obtain ⟨b1, r2⟩ := v2
      rw [hp2] at h
      simp only [Option.some_bind] at h
      cases hp3 : p1 r2 with
      | none => rw [hp3] at h; simp at h
      | some v3 =>
        obtain ⟨c1, r3⟩ := v3
        rw [hp3] at h
        simp only [Option.some_bind] at h
        cases hp4 : p1 r3 with
        | none => rw [hp4] at h; simp at h
        | some v4 =>
          obtain ⟨d1, r4⟩ := v4
          rw [hp4] at h
          simp only [Option.map_some', Option.some_inj, Prod.mk.injEq] at h
          obtain ⟨a, hsa, hda, hva⟩ := p1_inv hp1
          obtain ⟨b, hsb, hdb, hvb⟩ := p1_inv hp2
          obtain ⟨c, hsc, hdc, hvc⟩ := p1_inv hp3
          obtain ⟨d, hsd, hdd, hvd⟩ := p1_inv hp4
          refine ⟨a, b, c, d, ?_, hda, hdb, hdc, hdd, ?_⟩
          · rw [hsa, hsb, hsc, hsd, h.2]
          · omega

lemma p12_lt {s : List Char} {n : Nat} {r : List Char} (h : p12 s = some (n, r)) :
    n < 100 := by
  unfold p12 at h
  cases hp : p1 s with
  | none => rw [hp] at h; simp at h
  | some v =>
    obtain ⟨a1, r1⟩ := v
    rw [hp] at h
    simp only [Option.some_bind] at h
    obtain ⟨a, _, hda, hva⟩ := p1_inv hp
    have ha10 := dval_lt_of_digit hda
    cases hq : p1 r1 with
    | none =>
      rw [hq] at h
      simp only [Option.some_inj, Prod.mk.injEq] at h
      omega
    | some w =>
      obtain ⟨b1, r2⟩ := w
      rw [hq] at h
      simp only [Option.some_inj, Prod.mk.injEq] at h
      obtain ⟨b, _, hdb, hvb⟩ := p1_inv hq
      have hb10 := dval_lt_of_digit hdb
      omega

lemma p4_lt {s : List Char} {n : Nat} {r : List Char} (h : p4 s = some (n, r)) :
    n < 10000 := by
  obtain ⟨a, b, c, d, _, hda, hdb, hdc, hdd, hv⟩ := p4_inv h
  have := dval_lt_of_digit hda
  have := dval_lt_of_digit hdb
  have := dval_lt_of_digit hdc
  have := dval_lt_of_digit hdd
  omega

lemma expectCh_inv {c : Char} {s r : List Char} (h : expectCh c s = some r) :
    s = c :: r := by
  cases s with
  | nil => simp [expectCh] at h
  | cons x t =>
    by_cases hx : x = c
    · simp only [expectCh, hx, if_true, Option.some_inj] at h
      rw [hx, h]
    · simp [expectCh, hx] at h

lemma expectCh_cons (c : Char) (r : List Char) : expectCh c (c :: r) = some r := by
  simp [expectCh]

lemma expectCh_ne {c x : Char} (h : x ≠ c) (r : List Char) :
    expectCh c (x :: r) = none := by
  simp [expectCh, h]

lemma p12_nil_digit {a : Char} (ha : isDigitCh a = true) :
    p12 [a] = some (dval a, []) := by
  unfold p12
  rw [show p1 [a] = some (dval a, []) from by simp [p1, ha]]
  simp only [Option.some_bind]
  rfl

lemma p12_one_digit {a c : Char} (ha : isDigitCh a = true)
    (hc : isDigitCh c = false) (t : List Char) :
    p12 (a :: c :: t) = some (dval a, c :: t) := by
  unfold p12
  rw [show p1 (a :: c :: t) = some (dval a, c :: t) from by simp [p1, ha]]
  simp only [Option.some_bind]
  rw [p1_nondigit hc]

lemma p12_two_digits {a b : Char} (ha : isDigitCh a = true)
    (hb : isDigitCh b = true) (t : List Char) :
    p12 (a :: b :: t) = some (10 * dval a + dval b, t) := by
  unfold p12
  rw [show p1 (a :: b :: t) = some (dval a, b :: t) from by simp [p1, ha]]
  simp only [Option.some_bind]
  rw [show p1 (b :: t) = some (dval b, t) from by simp [p1, hb]]

lemma p12_dec2 {n : Nat} (hn : n < 100) {r : List Char} (hb : boundaryB r = true) :
    p12 (dec2 n ++ r) = some (n, r) := by
  unfold dec2
  by_cases h10 : n < 10
  · rw [if_pos h10]
    cases r with
    | nil =>
      show p12 [digitChar n] = some (n, [])
      rw [p12_nil_digit (digitChar_isDigit n), dval_digitChar, Nat.mod_eq_of_lt h10]
    | cons c t =>
      have hc : isDigitCh c = false := by
        simpa [boundaryB] using hb
      show p12 (digitChar n :: c :: t) = some (n, c :: t)
      rw [p12_one_digit (digitChar_isDigit n) hc, dval_digitChar, Nat.mod_eq_of_lt h10]
  · rw [if_neg h10]
    show p12 (digitChar (n / 10) :: digitChar n :: r) = some (n, r)
    rw [p12_two_digits (digitChar_isDigit _) (digitChar_isDigit _), dval_digitChar,
      dval_digitChar]
    have hv : 10 * (n / 10 % 10) + n % 10 = n := by omega
    rw [hv]

lemma p12_dec2_two {n : Nat} (h1 : 10 ≤ n) (hn : n < 100) (r : List Char) :
    p12 (dec2 n ++ r) = some (n, r) := by
  unfold dec2
  rw [if_neg (by omega)]
  show p12 (digitChar (n / 10) :: digitChar n :: r) = some (n, r)
  rw [p12_two_digits (digitChar_isDigit _) (digitChar_isDigit _), dval_digitChar,
    dval_digitChar]
  have hv : 10 * (n / 10 % 10) + n % 10 = n := by omega
  rw [hv]

lemma p12_dec2_any {n : Nat} (hn : n < 100) {r : List Char}
    (hb : 10 ≤ n ∨ boundaryB r = true) : p12 (dec2 n ++ r) = some (n, r) := by
  rcases hb with hb | hb
  · exact p12_dec2_two hb hn r
  · exact p12_dec2 hn hb

lemma p4_pad4 {y : Nat} (hy : y < 10000) (r : List Char) :
    p4 (pad4 y ++ r) = some (y, r) := by
  show p4 (digitChar (y / 1000) :: digitChar (y / 100) :: digitChar (y / 10) ::
    digitChar y :: r) = some (y, r)
  unfold p4
  rw [p1_digitChar]
  simp only [Option.some_bind]
  rw [p1_digitChar]
  simp only [Option.some_bind]
  rw [p1_digitChar]
  simp only [Option.some_bind]
  rw [p1_digitChar]
  simp only [Option.map_some']
  have hv : 1000 * (y / 1000 % 10) + 100 * (y / 100 % 10) + 10 * (y / 10 % 10) +
      y % 10 = y := by omega
  rw [hv]

lemma p4_pad4_raw (y : Nat) (r : List Char) :
    p4 (pad4 y ++ r) =
      some (1000 * (y / 1000 % 10) + 100 * (y / 100 % 10) + 10 * (y / 10 % 10) +
        y % 10, r) := by
  show p4 (digitChar (y / 1000) :: digitChar (y / 100) :: digitChar (y / 10) ::
    digitChar y :: r) = _
  unfold p4
  rw [p1_digitChar]
  simp only [Option.some_bind]
  rw [p1_digitChar]
  simp only [Option.some_bind]
  rw [p1_digitChar]
  simp only [Option.some_bind]
  rw [p1_digitChar]
  simp only [Option.map_some']

lemma p2_pad2_raw (m : Nat) (r : List Char) :
    p2 (pad2 m ++ r) = some (10 * (m / 10 % 10) + m % 10, r) := by
  show p2 (digitChar (m / 10) :: digitChar m :: r) = _
  unfold p2
  rw [p1_digitChar]
  simp only [Option.some_bind]
  rw [p1_digitChar]
  simp only [Option.map_some']

/-! ### Canonical-form facts -/

lemma canonical_inv {s : List Char} (h : canonicalShape s = true) :
    ∃ a b c d f g i j, s = [a, b, c, d, '-', f, g, '-', i, j] ∧
      isDigitCh a = true ∧ isDigitCh b = true ∧ isDigitCh c = true ∧
      isDigitCh d = true ∧ isDigitCh f = true ∧ isDigitCh g = true ∧
      isDigitCh i = true ∧ isDigitCh j = true := by
  unfold canonicalShape at h
  cases h4 : p4 s with
  | none => rw [h4] at h; simp at h
  | some yr =>
    obtain ⟨y, r1⟩ := yr
    rw [h4] at h
    simp only [Option.some_bind] at h
    cases he1 : expectCh '-' r1 with
    | none => rw [he1] at h; simp at h
    | some r2 =>
      rw [he1] at h
      simp only [Option.some_bind] at h
      cases h2 : p2 r2 with
      | none => rw [h2] at h; simp at h
      | some mr =>
        obtain ⟨m, r3⟩ := mr
        rw [h2] at h
        simp only [Option.some_bind] at h
        cases he2 : expectCh '-' r3 with
        | none => rw [he2] at h; simp at h
        | some r4 =>
          rw [he2] at h
          simp only [Option.some_bind] at h
          cases h5 : p2 r4 with
          | none => rw [h5] at h; simp at h
          | some dr =>
            obtain ⟨d2, r5⟩ := dr
            rw [h5] at h
            simp only [Option.map_some', Option.getD_some, List.isEmpty_iff] at h
            obtain ⟨a, b, c, d, hs, hda, hdb, hdc, hdd, _⟩ := p4_inv h4
            obtain ⟨f, g, hr2, hdf, hdg, _⟩ := p2_inv h2
            obtain ⟨i, j, hr4, hdi, hdj, _⟩ := p2_inv h5
            refine ⟨a, b, c, d, f, g, i, j, ?_, hda, hdb, hdc, hdd, hdf, hdg, hdi, hdj⟩
            rw [hs, expectCh_inv he1, hr2, expectCh_inv he2, hr4, h]

lemma canonical_strip {s : List Char} (h : canonicalShape s = true) :
    pyStrip s = s := by
  obtain ⟨a, b, c, d, f, g, i, j, hs, hda, hdb, hdc, hdd, hdf, hdg, hdi, hdj⟩ :=
    canonical_inv h
  apply pyStrip_no_space
  intro x hx
  rw [hs] at hx
  simp only [List.mem_cons, List.not_mem_nil, or_false] at hx
  rcases hx with rfl | rfl | rfl | rfl | rfl | rfl | rfl | rfl | rfl | rfl
  · exact not_space_of_digit hda
  · exact not_space_of_digit hdb
  · exact not_space_of_digit hdc
  · exact not_space_of_digit hdd
  · decide
  · exact not_space_of_digit hdf
  · exact not_space_of_digit hdg
  · decide
  · exact not_space_of_digit hdi
  · exact not_space_of_digit hdj

lemma canonical_ne_nil {s : List Char} (h : canonicalShape s = true) : s ≠ [] := by
  obtain ⟨a, _, _, _, _, _, _, _, hs, _⟩ := canonical_inv h
  rw [hs]
  exact List.cons_ne_nil _ _

/-- Identity of the normalizer on canonical-shaped input; no calendar check
happens on this path. -/
lemma convert_canonical_id {s : List Char} (h : canonicalShape s = true) :
    convert_date_format (Cell.str s) = some s := by
  simp only [convert_date_format]
  rw [if_neg (canonical_ne_nil h), canonical_strip h]
  unfold convertBody
  rw [if_pos h]

lemma p4_cons_nondigit {a : Char} (h : isDigitCh a = false) (t : List Char) :
    p4 (a :: t) = none := by
  unfold p4
  rw [p1_nondigit h]
  rfl

lemma canonicalShape_head_nondigit {a : Char} (h : isDigitCh a = false)
    (t : List Char) : canonicalShape (a :: t) = false := by
  unfold canonicalShape
  rw [p4_cons_nondigit h]
  rfl

lemma canonicalShape_sep {s : List Char} {y : Nat} {c : Char} {r : List Char}
    (h4 : p4 s = some (y, c :: r)) (hc : c ≠ '-') :
    canonicalShape s = false := by
  unfold canonicalShape
  rw [h4]
  simp only [Option.some_bind]
  rw [expectCh_ne hc]
  rfl

lemma canonicalShape_fmtDate (y m d : Nat) :
    canonicalShape (fmtDate y m d) = true := by
  unfold fmtDate canonicalShape
  rw [p4_pad4_raw]
  simp only [Option.some_bind]
  rw [expectCh_cons]
  simp only [Option.some_bind]
  rw [p2_pad2_raw]
  simp only [Option.some_bind]
  rw [expectCh_cons]
  simp only [Option.some_bind]
  rw [show pad2 d = pad2 d ++ [] from (List.append_nil _).symm, p2_pad2_raw]
  simp only [Option.map_some', Option.getD_some, List.isEmpty_nil]

/-! ### Guard and fall-through facts for the pattern cascade -/

lemma boundaryB_cons {c : Char} (h : isDigitCh c = false) (t : List Char) :
    boundaryB (c :: t) = true := by
  simp [boundaryB, h]

lemma containsRun_of_leads {pat s : List Char} (h : leadsWith pat s = true) :
    containsRun pat s = true := by
  cases s with
  | nil => exact h
  | cons c t =>
    unfold containsRun
    rw [h]
    rfl

lemma elemCh_of_mem {c : Char} {s : List Char} (h : c ∈ s) : elemCh c s = true := by
  simp only [elemCh, List.any_eq_true]
  exact ⟨c, h, by simp⟩

lemma branchReiwaLong_none_head {a : Char} (h : a ≠ '令') (t : List Char) :
    branchReiwaLong (a :: t) = none := by
  unfold branchReiwaLong
  by_cases hg : containsRun ['令', '和'] (a :: t) = true
  · rw [if_pos hg]
    unfold matchReiwaLong
    rw [expectCh_ne h]
    rfl
  · rw [if_neg hg]

lemma branchRShort_none_head {a : Char} (h : a ≠ 'R') (t : List Char) :
    branchRShort (a :: t) = none := by
  unfold branchRShort
  rw [show headIsR (a :: t) = false from by simp [headIsR, h]]
  rfl

lemma branchRShort_none_of_match {s : List Char} (h : matchRShort s = none) :
    branchRShort s = none := by
  unfold branchRShort
  by_cases hg : headIsR s = true
  · rw [if_pos hg, h]
    rfl
  · rw [if_neg hg]

lemma branchKanji_none_head {a : Char} (h : isDigitCh a = false) (t : List Char) :
    branchKanji (a :: t) = none := by
  unfold branchKanji
  by_cases hg : (elemCh '年' (a :: t) && elemCh '月' (a :: t) && elemCh '日' (a :: t)) = true
  · rw [if_pos hg]
    unfold matchKanji
    rw [p4_cons_nondigit h]
    rfl
  · rw [if_neg hg]

lemma branchKanji_none_sep {s : List Char} {y : Nat} {c : Char} {r : List Char}
    (h4 : p4 s = some (y, c :: r)) (hc : c ≠ '年') : branchKanji s = none := by
  unfold branchKanji
  by_cases hg : (elemCh '年' s && elemCh '月' s && elemCh '日' s) = true
  · rw [if_pos hg]
    unfold matchKanji
    rw [h4]
    simp only [Option.some_bind]
    unfold pMD
    rw [expectCh_ne hc]
    rfl
  · rw [if_neg hg]

lemma branchSlash_none_head {a : Char} (h : isDigitCh a = false) (t : List Char) :
    branchSlash (a :: t) = none := by
  unfold branchSlash
  by_cases hg : elemCh '/' (a :: t) = true
  · rw [if_pos hg]
    unfold matchSlash
    rw [p4_cons_nondigit h]
    rfl
  · rw [if_neg hg]

lemma convertTry_reiwaLong {s : List Char} {t : List Char}
    (h : branchReiwaLong s = some t) : convertTry s = .ok t := by
  simp only [convertTry, h]

lemma convertTry_rshort {s : List Char} {t : List Char}
    (h1 : branchReiwaLong s = none) (h : branchRShort s = some t) :
    convertTry s = .ok t := by
  simp only [convertTry, h1, h]

lemma convertTry_kanji {s : List Char} {t : List Char}
    (h1 : branchReiwaLong s = none) (h2 : branchRShort s = none)
    (h : branchKanji s = some t) : convertTry s = .ok t := by
  simp only [convertTry, h1, h2, h]

lemma convertTry_slash {s : List Char} {t : List Char}
    (h1 : branchReiwaLong s = none) (h2 : branchRShort s = none)
    (h3 : branchKanji s = none) (h : branchSlash s = some t) :
    convertTry s = .ok t := by
  simp only [convertTry, h1, h2, h3, h]

lemma convertTry_fallback {s : List Char}
    (h1 : branchReiwaLong s = none) (h2 : branchRShort s = none)
    (h3 : branchKanji s = none) (h4 : branchSlash s = none) :
    convertTry s = .error () := by
  simp only [convertTry, h1, h2, h3, h4, dateutilParse]

lemma convertBody_of_try {s t : List Char} (hc : canonicalShape s = false)
    (h : convertTry s = .ok t) : convertBody s = some t := by
  unfold convertBody
  rw [if_neg (by simp [hc]), h]

lemma convertBody_of_error {s : List Char} (hc : canonicalShape s = false)
    (h : convertTry s = .error ()) : convertBody s = none := by
  unfold convertBody
  rw [if_neg (by simp [hc]), h]

/-! ### Behaviour of the cascade on each constructed notation -/

lemma branchSlash_mkT {y m d : Nat} (hy : y < 10000) (hm : m < 100) (hd : d < 100)
    {rest : List Char} (hb : 10 ≤ d ∨ boundaryB rest = true) :
    branchSlash (mkSlashT y m d rest) = some (fmtDate y m d) := by
  unfold mkSlashT
  have h4 : p4 (pad4 y ++ '/' :: (dec2 m ++ '/' :: (dec2 d ++ rest))) =
      some (y, '/' :: (dec2 m ++ '/' :: (dec2 d ++ rest))) := p4_pad4 hy _
  unfold branchSlash
  rw [if_pos (elemCh_of_mem (List.mem_append_right _ (List.mem_cons_self _ _)))]
  unfold matchSlash
  rw [h4]
  simp only [Option.some_bind]
  unfold pMD
  rw [expectCh_cons]
  simp only [Option.some_bind]
  rw [p12_dec2 hm (boundaryB_cons (by decide) _)]
  simp only [Option.some_bind]
  rw [expectCh_cons]
  simp only [Option.some_bind]
  rw [p12_dec2_any hd hb]
  simp only [Option.some_bind, Option.map_some']

lemma convertBody_mkSlashT {y m d : Nat} (hy : y < 10000) (hm : m < 100)
    (hd : d < 100) {rest : List Char} (hb : 10 ≤ d ∨ boundaryB rest = true) :
    convertBody (mkSlashT y m d rest) = some (fmtDate y m d) := by
  have h4 : p4 (mkSlashT y m d rest) =
      some (y, '/' :: (dec2 m ++ '/' :: (dec2 d ++ rest))) := p4_pad4 hy _
  have hsh : canonicalShape (mkSlashT y m d rest) = false :=
    canonicalShape_sep h4 (by decide)
  have hhead : mkSlashT y m d rest = digitChar (y / 1000) :: (digitChar (y / 100) ::
      digitChar (y / 10) :: digitChar y :: ('/' :: (dec2 m ++ '/' :: (dec2 d ++ rest)))) := rfl
  have h1 : branchReiwaLong (mkSlashT y m d rest) = none := by
    rw [hhead]
    exact branchReiwaLong_none_head (digitChar_ne _ (by decide)) _
  have h2 : branchRShort (mkSlashT y m d rest) = none := by
    rw [hhead]
    exact branchRShort_none_head (digitChar_ne _ (by decide)) _
  have h3 : branchKanji (mkSlashT y m d rest) = none :=
    branchKanji_none_sep h4 (by decide)
  exact convertBody_of_try hsh (convertTry_slash h1 h2 h3 (branchSlash_mkT hy hm hd hb))

lemma branchKanji_mkT {y m d : Nat} (hy : y < 10000) (hm : m < 100) (hd : d < 100)
    (rest : List Char) :
    branchKanji (mkKanjiT y m d rest) = some (fmtDate y m d) := by
  unfold mkKanjiT
  have h4 : p4 (pad4 y ++ '年' :: (dec2 m ++ '月' :: (dec2 d ++ '日' :: rest))) =
      some (y, '年' :: (dec2 m ++ '月' :: (dec2 d ++ '日' :: rest))) := p4_pad4 hy _
  unfold branchKanji
  have hg1 : elemCh '年' (pad4 y ++ '年' :: (dec2 m ++ '月' :: (dec2 d ++ '日' :: rest))) = true :=
    elemCh_of_mem (List.mem_append_right _ (List.mem_cons_self _ _))
  have hg2 : elemCh '月' (pad4 y ++ '年' :: (dec2 m ++ '月' :: (dec2 d ++ '日' :: rest))) = true := by
    refine elemCh_of_mem (List.mem_append_right _ (List.mem_cons_of_mem _
      (List.mem_append_right _ (List.mem_cons_self _ _))))
  have hg3 : elemCh '日' (pad4 y ++ '年' :: (dec2 m ++ '月' :: (dec2 d ++ '日' :: rest))) = true := by
    refine elemCh_of_mem (List.mem_append_right _ (List.mem_cons_of_mem _
      (List.mem_append_right _ (List.mem_cons_of_mem _
        (List.mem_append_right _ (List.mem_cons_self _ _))))))
  rw [if_pos (by rw [hg1, hg2, hg3]; rfl)]
  unfold matchKanji
  rw [h4]
  simp only [Option.some_bind]
  unfold pMD
  rw [expectCh_cons]
  simp only [Option.some_bind]
  rw [p12_dec2 hm (boundaryB_cons (by decide) _)]
  simp only [Option.some_bind]
  rw [expectCh_cons]
  simp only [Option.some_bind]
  rw [p12_dec2 hd (boundaryB_cons (by decide) _)]
  simp only [Option.some_bind]
  rw [expectCh_cons]
  simp only [Option.map_some']

lemma convertBody_mkKanjiT {y m d : Nat} (hy : y < 10000) (hm : m < 100)
    (hd : d < 100) (rest : List Char) :
    convertBody (mkKanjiT y m d rest) = some (fmtDate y m d) := by
  have h4 : p4 (mkKanjiT y m d rest) =
      some (y, '年' :: (dec2 m ++ '月' :: (dec2 d ++ '日' :: rest))) := p4_pad4 hy _
  have hsh : canonicalShape (mkKanjiT y m d rest) = false :=
    canonicalShape_sep h4 (by decide)
  have hhead : mkKanjiT y m d rest = digitChar (y / 1000) :: (digitChar (y / 100) ::
      digitChar (y / 10) :: digitChar y ::
      ('年' :: (dec2 m ++ '月' :: (dec2 d ++ '日' :: rest)))) := rfl
  have h1 : branchReiwaLong (mkKanjiT y m d rest) = none := by
    rw [hhead]
    exact branchReiwaLong_none_head (digitChar_ne _ (by decide)) _
  have h2 : branchRShort (mkKanjiT y m d rest) = none := by
    rw [hhead]
    exact branchRShort_none_head (digitChar_ne _ (by decide)) _
  exact convertBody_of_try hsh (convertTry_kanji h1 h2 (branchKanji_mkT hy hm hd rest))

lemma branchRShort_mkT {y m d : Nat} (hy : y < 100) (hm : m < 100) (hd : d < 100)
    {rest : List Char} (hb : 10 ≤ d ∨ boundaryB rest = true) :
    branchRShort (mkRShortT y m d rest) = some (fmtDate (y + 2018) m d) := by
  unfold mkRShortT
  unfold branchRShort
  rw [if_pos (show headIsR ('R' :: (dec2 y ++ '/' :: (dec2 m ++ '/' :: (dec2 d ++ rest)))) = true
    from by simp [headIsR])]
  unfold matchRShort
  rw [expectCh_cons]
  simp only [Option.some_bind]
  rw [p12_dec2 hy (boundaryB_cons (by decide) _)]
  simp only [Option.some_bind]
  unfold pMD
  rw [expectCh_cons]
  simp only [Option.some_bind]
  rw [p12_dec2 hm (boundaryB_cons (by decide) _)]
  simp only [Option.some_bind]
  rw [expectCh_cons]
  simp only [Option.some_bind]
  rw [p12_dec2_any hd hb]
  simp only [Option.some_bind, Option.map_some']

lemma convertBody_mkRShortT {y m d : Nat} (hy : y < 100) (hm : m < 100)
    (hd : d < 100) {rest : List Char} (hb : 10 ≤ d ∨ boundaryB rest = true) :
    convertBody (mkRShortT y m d rest) = some (fmtDate (y + 2018) m d) := by
  have hsh : canonicalShape (mkRShortT y m d rest) = false := by
    rw [show mkRShortT y m d rest = 'R' :: (dec2 y ++ '/' :: (dec2 m ++ '/' :: (dec2 d ++ rest)))
      from rfl]
    exact canonicalShape_head_nondigit (by decide) _
  have h1 : branchReiwaLong (mkRShortT y m d rest) = none := by
    rw [show mkRShortT y m d rest = 'R' :: (dec2 y ++ '/' :: (dec2 m ++ '/' :: (dec2 d ++ rest)))
      from rfl]
    exact branchReiwaLong_none_head (by decide) _
  exact convertBody_of_try hsh (convertTry_rshort h1 (branchRShort_mkT hy hm hd hb))

lemma branchReiwaLong_mkT {y m d : Nat} (hy : y < 100) (hm : m < 100) (hd : d < 100)
    (rest : List Char) :
    branchReiwaLong (mkReiwaLongT y m d rest) = some (fmtDate (y + 2018) m d) := by
  unfold mkReiwaLongT
  unfold branchReiwaLong
  rw [if_pos (containsRun_of_leads (show leadsWith ['令', '和']
    ('令' :: '和' :: (dec2 y ++ '年' :: (dec2 m ++ '月' :: (dec2 d ++ '日' :: rest)))) = true
    from by simp [leadsWith]))]
  unfold matchReiwaLong
  rw [expectCh_cons]
  simp only [Option.some_bind]
  rw [expectCh_cons]
  simp only [Option.some_bind]
  rw [p12_dec2 hy (boundaryB_cons (by decide) _)]
  simp only [Option.some_bind]
  unfold pMD
  rw [expectCh_cons]
  simp only [Option.some_bind]
  rw [p12_dec2 hm (boundaryB_cons (by decide) _)]
  simp only [Option.some_bind]
  rw [expectCh_cons]
  simp only [Option.some_bind]
  rw [p12_dec2 hd (boundaryB_cons (by decide) _)]
  simp only [Option.some_bind]
  rw [expectCh_cons]
  simp only [Option.map_some']

lemma convertBody_mkReiwaLongT {y m d : Nat} (hy : y < 100) (hm : m < 100)
    (hd : d < 100) (rest : List Char) :
    convertBody (mkReiwaLongT y m d rest) = some (fmtDate (y + 2018) m d) := by
  have hsh : canonicalShape (mkReiwaLongT y m d rest) = false := by
    rw [show mkReiwaLongT y m d rest =
      '令' :: ('和' :: (dec2 y ++ '年' :: (dec2 m ++ '月' :: (dec2 d ++ '日' :: rest))))
      from rfl]
    exact canonicalShape_head_nondigit (by decide) _
  exact convertBody_of_try hsh
    (convertTry_reiwaLong (branchReiwaLong_mkT hy hm hd rest))

lemma noSpace_dec2 {c : Char} {n : Nat} (h : c ∈ dec2 n) : isSpace c = false := by
  unfold dec2 at h
  by_cases h10 : n < 10
  · rw [if_pos h10] at h
    simp only [List.mem_cons, List.not_mem_nil, or_false] at h
    rw [h]
    exact not_space_digitChar n
  · rw [if_neg h10] at h
    simp only [List.mem_cons, List.not_mem_nil, or_false] at h
    rcases h with rfl | rfl
    · exact not_space_digitChar _
    · exact not_space_digitChar _

lemma noSpace_pad4 {c : Char} {n : Nat} (h : c ∈ pad4 n) : isSpace c = false := by
  unfold pad4 at h
  simp only [List.mem_cons, List.not_mem_nil, or_false] at h
  rcases h with rfl | rfl | rfl | rfl <;> exact not_space_digitChar _

lemma pyStrip_mkSlash (y m d : Nat) : pyStrip (mkSlash y m d) = mkSlash y m d := by
  apply pyStrip_no_space
  intro c hc
  unfold mkSlash mkSlashT at hc
  simp only [List.append_nil, List.mem_append, List.mem_cons] at hc
  rcases hc with hc | rfl | hc | rfl | hc
  · exact noSpace_pad4 hc
  · decide
  · exact noSpace_dec2 hc
  · decide
  · exact noSpace_dec2 hc

lemma pyStrip_mkRShort (y m d : Nat) : pyStrip (mkRShort y m d) = mkRShort y m d := by
  apply pyStrip_no_space
  intro c hc
  unfold mkRShort mkRShortT at hc
  simp only [List.append_nil, List.mem_append, List.mem_cons] at hc
  rcases hc with rfl | hc | rfl | hc | rfl | hc
  · decide
  · exact noSpace_dec2 hc
  · decide
  · exact noSpace_dec2 hc
  · decide
  · exact noSpace_dec2 hc

lemma pyStrip_mkKanji (y m d : Nat) : pyStrip (mkKanji y m d) = mkKanji y m d := by
  apply pyStrip_no_space
  intro c hc
  unfold mkKanji mkKanjiT at hc
  simp only [List.mem_append, List.mem_cons, List.not_mem_nil, or_false] at hc
  rcases hc with hc | rfl | hc | rfl | hc | rfl
  · exact noSpace_pad4 hc
  · decide
  · exact noSpace_dec2 hc
  · decide
  · exact noSpace_dec2 hc
  · decide

lemma pyStrip_mkReiwaLong (y m d : Nat) :
    pyStrip (mkReiwaLong y m d) = mkReiwaLong y m d := by
  apply pyStrip_no_space
  intro c hc
  unfold mkReiwaLong mkReiwaLongT at hc
  simp only [List.mem_append, List.mem_cons, List.not_mem_nil, or_false] at hc
  rcases hc with rfl | rfl | hc | rfl | hc | rfl | hc | rfl
  · decide
  · decide
  · exact noSpace_dec2 hc
  · decide
  · exact noSpace_dec2 hc
  · decide
  · exact noSpace_dec2 hc
  · decide

lemma convert_str_of_body {s : List Char} (hne : s ≠ [])
    (hstrip : pyStrip s = s) {t : List Char} (h : convertBody s = some t) :
    convert_date_format (Cell.str s) = some t := by
  simp only [convert_date_format]
  rw [if_neg hne, hstrip, h]

/-! ### Every successful conversion is canonical in shape -/

lemma branch_shape_reiwaLong {s t : List Char} (h : branchReiwaLong s = some t) :
    canonicalShape t = true := by
  unfold branchReiwaLong at h
  by_cases hg : containsRun ['令', '和'] s = true
  · rw [if_pos hg] at h
    obtain ⟨v, _, rfl⟩ := Option.map_eq_some'.mp h
    exact canonicalShape_fmtDate _ _ _
  · rw [if_neg hg] at h
    exact absurd h (by simp)

lemma branch_shape_rshort {s t : List Char} (h : branchRShort s = some t) :
    canonicalShape t = true := by
  unfold branchRShort at h
  by_cases hg : headIsR s = true
  · rw [if_pos hg] at h
    obtain ⟨v, _, rfl⟩ := Option.map_eq_some'.mp h
    exact canonicalShape_fmtDate _ _ _
  · rw [if_neg hg] at h
    exact absurd h (by simp)

lemma branch_shape_kanji {s t : List Char} (h : branchKanji s = some t) :
    canonicalShape t = true := by
  unfold branchKanji at h
  by_cases hg : (elemCh '年' s && elemCh '月' s && elemCh '日' s) = true
  · rw [if_pos hg] at h
    obtain ⟨v, _, rfl⟩ := Option.map_eq_some'.mp h
    exact canonicalShape_fmtDate _ _ _
  · rw [if_neg hg] at h
    exact absurd h (by simp)

lemma branch_shape_slash {s t : List Char} (h : branchSlash s = some t) :
    canonicalShape t = true := by
  unfold branchSlash at h
  by_cases hg : elemCh '/' s = true
  · rw [if_pos hg] at h
    obtain ⟨v, _, rfl⟩ := Option.map_eq_some'.mp h
    exact canonicalShape_fmtDate _ _ _
  · rw [if_neg hg] at h
    exact absurd h (by simp)

lemma convertTry_shape {s t : List Char} (h : convertTry s = .ok t) :
    canonicalShape t = true := by
  unfold convertTry at h
  cases h1 : branchReiwaLong s with
  | some u =>
    rw [h1] at h
    simp only [Except.ok.injEq] at h
    exact h ▸ branch_shape_reiwaLong h1
  | none =>
    rw [h1] at h
    simp only [] at h
    cases h2 : branchRShort s with
    | some u =>
      rw [h2] at h
      simp only [Except.ok.injEq] at h
      exact h ▸ branch_shape_rshort h2
    | none =>
      rw [h2] at h
      simp only [] at h
      cases h3 : branchKanji s with
      | some u =>
        rw [h3] at h
        simp only [Except.ok.injEq] at h
        exact h ▸ branch_shape_kanji h3
      | none =>
        rw [h3] at h
        simp only [] at h
        cases h4 : branchSlash s with
        | some u =>
          rw [h4] at h
          simp only [Except.ok.injEq] at h
          exact h ▸ branch_shape_slash h4
        | none =>
          rw [h4] at h
          simp only [dateutilParse] at h
          exact absurd h (by simp)

lemma convertBody_shape {s t : List Char} (h : convertBody s = some t) :
    canonicalShape t = true := by
  unfold convertBody at h
  by_cases hc : canonicalShape s = true
  · rw [if_pos hc] at h
    simp only [Option.some_inj] at h
    exact h ▸ hc
  · rw [if_neg hc] at h
    cases ht : convertTry s with
    | ok u =>
      rw [ht] at h
      simp only [Option.some_inj] at h
      exact h ▸ convertTry_shape ht
    | error e =>
      rw [ht] at h
      exact absurd h (by simp)

/-- Every value the date normalizer returns matches the canonical pattern of
four digits, hyphen, two digits, hyphen, two digits. -/
lemma convert_shape {c : Cell} {t : List Char} (h : convert_date_format c = some t) :
    canonicalShape t = true := by
  cases c with
  | na => exact absurd h (by simp [convert_date_format])
  | str s =>
    simp only [convert_date_format] at h
    by_cases hs : s = []
    · rw [if_pos hs] at h
      exact absurd h (by simp)
    · rw [if_neg hs] at h
      exact convertBody_shape h
  | num q =>
    simp only [convert_date_format] at h
    by_cases hq : q.man = 0
    · rw [if_pos hq] at h
      exact absurd h (by simp)
    · rw [if_neg hq] at h
      exact convertBody_shape h

/-! ### Import loop facts -/

lemma insertEntry_inv {d c s : List Char} {a : Option Dec} {e : Entry}
    (h : insertEntry d c s a = .ok e) :
    e.date = d ∧ e.category = c ∧ e.subject = s := by
  cases a with
  | none => exact absurd h (by simp [insertEntry])
  | some q =>
    simp only [insertEntry, Except.ok.injEq] at h
    rw [← h]
    exact ⟨rfl, rfl, rfl⟩

lemma importLoop_table (rows : List Row) (i : Nat) (table : List Entry) :
    (importLoop rows i table).2.2 = table ++ (importLoop rows i table).1 := by
  induction rows generalizing i table with
  | nil => simp [importLoop]
  | cons r rest ih =>
    cases hcv : convert_date_format r.date with
    | none =>
      simp only [importLoop, hcv]
      exact ih (i + 1) table
    | some d =>
      cases hfc : floatCell r.amount with
      | error e =>
        simp only [importLoop, hcv, hfc]
        exact ih (i + 1) table
      | ok a =>
        cases hins : insertEntry d (pyStrip (cellToStr r.category))
            (pyStrip (cellToStr r.subject)) a with
        | error e =>
          simp only [importLoop, hcv, hfc, hins]
          exact ih (i + 1) table
        | ok e =>
          simp only [importLoop, hcv, hfc, hins]
          rw [ih (i + 1) (table ++ [e])]
          simp

lemma importLoop_shape {rows : List Row} {i : Nat} {table : List Entry} {e : Entry}
    (he : e ∈ (importLoop rows i table).1) : canonicalShape e.date = true := by
  induction rows generalizing i table with
  | nil => simp [importLoop] at he
  | cons r rest ih =>
    cases hcv : convert_date_format r.date with
    | none =>
      rw [show (importLoop (r :: rest) i table).1 = (importLoop rest (i + 1) table).1
        from by simp only [importLoop, hcv]] at he
      exact ih he
    | some d =>
      cases hfc : floatCell r.amount with
      | error e2 =>
        rw [show (importLoop (r :: rest) i table).1 = (importLoop rest (i + 1) table).1
          from by simp only [importLoop, hcv, hfc]] at he
        exact ih he
      | ok a =>
        cases hins : insertEntry d (pyStrip (cellToStr r.category))
            (pyStrip (cellToStr r.subject)) a with
        | error e2 =>
          rw [show (importLoop (r :: rest) i table).1 = (importLoop rest (i + 1) table).1
            from by simp only [importLoop, hcv, hfc, hins]] at he
          exact ih he
        | ok e1 =>
          rw [show (importLoop (r :: rest) i table).1 =
              e1 :: (importLoop rest (i + 1) (table ++ [e1])).1
            from by simp only [importLoop, hcv, hfc, hins]] at he
          rcases List.mem_cons.mp he with rfl | hmem
          · rw [(insertEntry_inv hins).1]
            exact convert_shape hcv
          · exact ih hmem

lemma list_isEmpty_false {α : Type} {l : List α} (h : l ≠ []) : l.isEmpty = false := by
  cases l with
  | nil => exact absurd rfl h
  | cons a t => rfl

lemma validate_invalid {f : Frame} (h : missingColumns f ≠ []) :
    (validate_csv_format f).1.valid = false ∧
    (validate_csv_format f).1.errors = [Msg.missingCols (missingColumns f)] := by
  have hie := list_isEmpty_false h
  constructor
  · simp only [validate_csv_format, hie]
  · simp only [validate_csv_format, hie]
    simp

/-! ### Round-trip facts -/

lemma canonical_length {s : List Char} (h : canonicalShape s = true) :
    s.length = 10 := by
  obtain ⟨a, b, c, d, f, g, i, j, hs, _⟩ := canonical_inv h
  rw [hs]
  rfl

lemma not_na_of_canonical {s : List Char} (h : canonicalShape s = true) :
    s ∉ naStrings := by
  intro hmem
  have hlen := canonical_length h
  fin_cases hmem <;> simp at hlen

lemma canonical_parseNum {s : List Char} (h : canonicalShape s = true) :
    parseNum s = none := by
  obtain ⟨a, b, c, d, f, g, i, j, hs, hda, hdb, hdc, hdd, _⟩ := canonical_inv h
  have hstrip := canonical_strip h
  subst hs
  have ha1 : a ≠ '-' := fun hh => by rw [hh] at hda; exact absurd hda (by decide)
  have ha2 : a ≠ '+' := fun hh => by rw [hh] at hda; exact absurd hda (by decide)
  simp only [parseNum, hstrip]
  simp only [ha1, ha2, if_false, List.takeWhile_cons, List.dropWhile_cons, hda, hdb,
    hdc, hdd, show isDigitCh '-' = false from by decide, if_true, Bool.false_eq_true,
    List.takeWhile_nil, List.dropWhile_nil]
  simp

lemma inferCell_str {s : List Char} (h : s ∉ naStrings) :
    inferCell false s = Cell.str s := by
  simp [inferCell, h]

/-- Row a persisted entry takes after export and re-reading, in the case the
round-trip hypotheses guarantee: every field comes back as written. -/
def rowOfEntry (e : Entry) : Row :=
  { date := Cell.str e.date, category := Cell.str e.category,
    subject := Cell.str e.subject, amount := Cell.num e.amount }

lemma exportImportFrame_rows {tbl : List Entry} (hne : tbl ≠ [])
    (hg : ∀ e ∈ tbl, goodEntry e) :
    (exportImportFrame tbl).rows = tbl.map rowOfEntry := by
  obtain ⟨e0, rest, rfl⟩ := List.exists_cons_of_ne_nil hne
  have hg0 := hg e0 (List.mem_cons_self _ _)
  have hdN : colIsNumeric ((e0 :: rest).map Entry.date) = false := by
    simp only [colIsNumeric, List.map_cons, List.all_cons, Bool.and_eq_false_iff]
    left
    rw [canonical_parseNum hg0.1]
    simp [not_na_of_canonical hg0.1]
  have hcN : colIsNumeric ((e0 :: rest).map Entry.category) = false := by
    simp only [colIsNumeric, List.map_cons, List.all_cons, Bool.and_eq_false_iff]
    left
    rw [hg0.2.1.2.2]
    simp [hg0.2.1.2.1]
  have hsN : colIsNumeric ((e0 :: rest).map Entry.subject) = false := by
    simp only [colIsNumeric, List.map_cons, List.all_cons, Bool.and_eq_false_iff]
    left
    rw [hg0.2.2.2.2]
    simp [hg0.2.2.2.1]
  simp only [exportImportFrame, hdN, hcN, hsN]
  apply List.map_congr_left
  intro e he
  have hge := hg e he
  simp only [rowOfEntry]
  rw [inferCell_str (not_na_of_canonical hge.1), inferCell_str hge.2.1.2.1,
    inferCell_str hge.2.2.2.1]

lemma importLoop_good (tbl : List Entry) (hg : ∀ e ∈ tbl, goodEntry e)
    (i : Nat) (table : List Entry) :
    (importLoop (tbl.map rowOfEntry) i table).1 = tbl := by
  induction tbl generalizing i table with
  | nil => rfl
  | cons e rest ih =>
    have hge := hg e (List.mem_cons_self _ _)
    have hcv : convert_date_format (Cell.str e.date) = some e.date :=
      convert_canonical_id hge.1
    simp only [List.map_cons, rowOfEntry, importLoop, hcv, floatCell, cellToStr,
      insertEntry]
    rw [hge.2.1.1, hge.2.2.1]
    rw [ih (fun x hx => hg x (List.mem_cons_of_mem _ hx))]

/-! ### Concrete batches used by the claim theorems -/

/-- Five-row batch with all four columns: rows 1, 2 and 4 fully valid, row 3
with an unparsable date, row 5 with a non-numeric amount. -/
def fC1 : Frame :=
  { hasDate := true, hasCategory := true, hasSubject := true, hasAmount := true,
    rows :=
      [{ date := Cell.str ['2', '0', '2', '4', '-', '0', '1', '-', '0', '1'],
         category := Cell.str ['x'], subject := Cell.str ['y'],
         amount := Cell.str ['1', '0', '0'] },
       { date := Cell.str ['2', '0', '2', '4', '-', '0', '1', '-', '0', '2'],
         category := Cell.str ['x'], subject := Cell.str ['y'],
         amount := Cell.str ['2', '0', '0'] },
       { date := Cell.str ['n', 'o', 't', ' ', 'a', ' ', 'd', 'a', 't', 'e'],
         category := Cell.str ['x'], subject := Cell.str ['y'],
         amount := Cell.str ['3', '0', '0'] },
       { date := Cell.str ['2', '0', '2', '4', '-', '0', '1', '-', '0', '4'],
         category := Cell.str ['x'], subject := Cell.str ['y'],
         amount := Cell.str ['4', '0', '0'] },
       { date := Cell.str ['2', '0', '2', '4', '-', '0', '1', '-', '0', '5'],
         category := Cell.str ['x'], subject := Cell.str ['y'],
         amount := Cell.str ['a', 'b', 'c'] }] }

/-- One-row batch whose date is canonical in shape but not a real calendar
date (month 13, day 99). -/
def fC2 : Frame :=
  { hasDate := true, hasCategory := true, hasSubject := true, hasAmount := true,
    rows :=
      [{ date := Cell.str ['2', '0', '2', '4', '-', '1', '3', '-', '9', '9'],
         category := Cell.str ['x'], subject := Cell.str ['y'],
         amount := Cell.str ['1'] }] }

/-- One-row batch with a non-numeric amount cell. -/
def fC3 : Frame :=
  { hasDate := true, hasCategory := true, hasSubject := true, hasAmount := true,
    rows :=
      [{ date := Cell.str ['2', '0', '2', '4', '-', '0', '1', '-', '0', '5'],
         category := Cell.str ['x'], subject := Cell.str ['y'],
         amount := Cell.str ['a', 'b', 'c'] }] }

/-- One-row fully valid batch. -/
def fC4 : Frame :=
  { hasDate := true, hasCategory := true, hasSubject := true, hasAmount := true,
    rows :=
      [{ date := Cell.str ['2', '0', '2', '4', '-', '0', '1', '-', '0', '5'],
         category := Cell.str ['x'], subject := Cell.str ['y'],
         amount := Cell.str ['1'] }] }

/-- Batch whose amount column is missing. -/
def fC5 : Frame :=
  { hasDate := true, hasCategory := true, hasSubject := true, hasAmount := false,
    rows :=
      [{ date := Cell.str ['2', '0', '2', '4', '-', '0', '1', '-', '0', '5'],
         category := Cell.str ['x'], subject := Cell.str ['y'],
         amount := Cell.na }] }

/-- Persisted set with a canonical date but a subject carrying a leading
blank. -/
def tblC9 : List Entry :=
  [{ date := ['2', '0', '2', '4', '-', '0', '1', '-', '0', '5'],
     category := ['x'], subject := [' ', 'a'], amount := { man := 100, exp := 0 } }]

/-! ### Claim theorems -/

/-- C1: on a batch of five rows with all four required columns, where row 3
has an unparsable date and row 5 a non-numeric amount, the import accepts
exactly three rows and rejects exactly two, one for row index 3 with the
date-format reason and one for row index 5 with a reason tied to its amount
(the validator has already coerced the non-numeric amount to NaN, so the row
fails at the parameterized insert, where SQLite turns NaN into NULL and the
NOT NULL constraint on the amount column rejects it); the two reasons are
distinguishable. -/
theorem c1_batch_of_five :
    (import_from_csv fC1 []).1.accepted.length = 3 ∧
    (import_from_csv fC1 []).1.rejected =
      [(3, RowErr.dateFormat (Cell.str ['n', 'o', 't', ' ', 'a', ' ', 'd', 'a', 't', 'e'])),
       (5, RowErr.insertFailed InsErr.notNullAmount)] ∧
    RowErr.dateFormat (Cell.str ['n', 'o', 't', ' ', 'a', ' ', 'd', 'a', 't', 'e']) ≠
      RowErr.insertFailed InsErr.notNullAmount := by
  refine ⟨by decide, by decide, by decide⟩

/-- C2 counterexample: the import accepts a row whose date is the string
2024-13-99, which is canonical in shape but not calendar-valid, so a
persisted date is not always a real calendar date. -/
theorem c2_invalid_calendar_date_accepted :
    (import_from_csv fC2 []).1.accepted =
      [{ date := ['2', '0', '2', '4', '-', '1', '3', '-', '9', '9'],
         category := ['x'], subject := ['y'], amount := { man := 1, exp := 0 } }] ∧
    calendarValid ['2', '0', '2', '4', '-', '1', '3', '-', '9', '9'] = false := by
  refine ⟨by decide, by decide⟩

/-- C2 amended: every row the import pipeline accepts carries a date in
canonical shape (four digits, hyphen, two digits, hyphen, two digits), but
calendar validity is not guaranteed. -/
theorem c2_accepted_dates_canonical_shape (f : Frame) (tbl : List Entry) (e : Entry)
    (he : e ∈ (import_from_csv f tbl).1.accepted) : canonicalShape e.date = true := by
  by_cases hv : (validate_csv_format f).1.valid = true
  · have hred : (import_from_csv f tbl).1.accepted =
        (importLoop (validate_csv_format f).2.rows 0 tbl).1 := by
      simp only [import_from_csv]
      rw [if_pos hv]
    rw [hred] at he
    exact importLoop_shape he
  · have hred : (import_from_csv f tbl).1.accepted = [] := by
      simp only [import_from_csv]
      rw [if_neg hv]
    rw [hred] at he
    exact absurd he (List.not_mem_nil e)

/-- C2 amended, witness at the concrete batch. -/
theorem c2_accepted_dates_canonical_shape_witness :
    canonicalShape ['2', '0', '2', '4', '-', '1', '3', '-', '9', '9'] = true :=
  c2_accepted_dates_canonical_shape fC2 []
    { date := ['2', '0', '2', '4', '-', '1', '3', '-', '9', '9'],
      category := ['x'], subject := ['y'], amount := { man := 1, exp := 0 } }
    (by decide)

/-- C3 counterexample: the validator call does not leave the batch argument
unchanged; the non-numeric amount cell of the batch holds a different value
after the call (it became a missing value). -/
theorem c3_validator_mutates_batch :
    (validate_csv_format fC3).2 ≠ fC3 ∧
    (validate_csv_format fC3).2.rows.map Row.amount = [Cell.na] ∧
    fC3.rows.map Row.amount = [Cell.str ['a', 'b', 'c']] := by
  refine ⟨by decide, by decide, by decide⟩

/-- C3 amended: the date normalizer and the validator result are functions of
the input alone, but `validate_csv_format` mutates its batch: after the call
the amount column holds the numeric coercion of its previous contents
(non-numeric text becomes a missing value), while the column flags and the
date, category and subject columns are unchanged. -/
theorem c3_validator_effect (f : Frame) :
    (validate_csv_format f).2.hasDate = f.hasDate ∧
    (validate_csv_format f).2.hasCategory = f.hasCategory ∧
    (validate_csv_format f).2.hasSubject = f.hasSubject ∧
    (validate_csv_format f).2.hasAmount = f.hasAmount ∧
    (validate_csv_format f).2.rows.map Row.date = f.rows.map Row.date ∧
    (validate_csv_format f).2.rows.map Row.category = f.rows.map Row.category ∧
    (validate_csv_format f).2.rows.map Row.subject = f.rows.map Row.subject ∧
    (validate_csv_format f).2.rows.map Row.amount =
      (if f.hasAmount then f.rows.map fun r => coerceCell r.amount
       else f.rows.map Row.amount) := by
  by_cases ha : f.hasAmount = true
  · simp [validate_csv_format, ha, List.map_map, Function.comp]
  · simp [validate_csv_format, ha]

/-- C4 counterexample: an import call itself changes the ledger table; after
importing a one-row valid batch into an empty table the table is no longer
empty, so persistence is not left to the caller. -/
theorem c4_import_writes_to_storage :
    (import_from_csv fC4 []).2 =
      [{ date := ['2', '0', '2', '4', '-', '0', '1', '-', '0', '5'],
         category := ['x'], subject := ['y'], amount := { man := 1, exp := 0 } }] ∧
    (import_from_csv fC4 []).2 ≠ [] := by
  refine ⟨by decide, by decide⟩

/-- C4 amended: `validate_csv_format` takes no table and performs no writes,
but `import_from_csv` persists the accepted rows itself: after every import
call the ledger table equals the prior table with exactly the accepted
entries appended, one insert per accepted row, in order. -/
theorem c4_table_after_import (f : Frame) (tbl : List Entry) :
    (import_from_csv f tbl).2 = tbl ++ (import_from_csv f tbl).1.accepted := by
  simp only [import_from_csv]
  by_cases hv : (validate_csv_format f).1.valid = true
  · rw [if_pos hv]
    exact importLoop_table _ 0 tbl
  · rw [if_neg hv]
    simp

/-- C5: a batch missing at least one required column fails wholesale: the
call returns the failure flag, a single structural error listing the missing
column names, empty accepted and rejected sequences, and an unchanged
table. -/
theorem c5_missing_column_batch_failure (f : Frame) (tbl : List Entry)
    (h : missingColumns f ≠ []) :
    (import_from_csv f tbl).1.ok = false ∧
    (import_from_csv f tbl).1.accepted = [] ∧
    (import_from_csv f tbl).1.rejected = [] ∧
    (import_from_csv f tbl).1.structuralErrors = [Msg.missingCols (missingColumns f)] ∧
    (import_from_csv f tbl).2 = tbl := by
  obtain ⟨hval, herr⟩ := validate_invalid h
  have hneg : ¬(validate_csv_format f).1.valid = true := by simp [hval]
  simp only [import_from_csv]
  rw [if_neg hneg]
  exact ⟨rfl, rfl, rfl, herr, rfl⟩

/-- C5 witness at a batch missing the amount column. -/
theorem c5_missing_column_batch_failure_witness :
    (import_from_csv fC5 []).1.ok = false ∧
    (import_from_csv fC5 []).1.accepted = [] ∧
    (import_from_csv fC5 []).1.rejected = [] ∧
    (import_from_csv fC5 []).1.structuralErrors = [Msg.missingCols [Col.amount]] ∧
    (import_from_csv fC5 []).2 = [] :=
  c5_missing_column_batch_failure fC5 [] (by decide)

/-- C6: on every string matching the canonical pattern the normalizer is the
identity, with no calendar-validity check (the hypothesis admits strings
such as 2024-13-99), and normalizing twice yields the same string both
times. -/
theorem c6_canonical_identity_idempotent (s : List Char)
    (h : canonicalShape s = true) :
    convert_date_format (Cell.str s) = some s ∧
    (convert_date_format (Cell.str s)).bind
      (fun t => convert_date_format (Cell.str t)) = some s := by
  have h1 := convert_canonical_id h
  refine ⟨h1, ?_⟩
  rw [h1]
  simpa using convert_canonical_id h

/-- C6 witness at the calendar-invalid canonical string 2024-13-99. -/
theorem c6_canonical_identity_idempotent_witness :
    canonicalShape ['2', '0', '2', '4', '-', '1', '3', '-', '9', '9'] = true ∧
    convert_date_format
        (Cell.str ['2', '0', '2', '4', '-', '1', '3', '-', '9', '9']) =
      some ['2', '0', '2', '4', '-', '1', '3', '-', '9', '9'] :=
  ⟨by decide,
   (c6_canonical_identity_idempotent _ (by decide)).1⟩

/-- C7: the four fixed non-canonical patterns convert with zero-padded month
and day; the Reiwa long and short forms map era year Y to Gregorian year
Y + 2018 and the two Gregorian forms take the year literally; in particular
the five concrete conversions of the specification hold. -/
theorem c7_fixed_pattern_conversions :
    (∀ y m d : Nat, y < 100 → m < 100 → d < 100 →
      convert_date_format (Cell.str (mkReiwaLong y m d)) =
        some (fmtDate (y + 2018) m d)) ∧
    (∀ y m d : Nat, y < 100 → m < 100 → d < 100 →
      convert_date_format (Cell.str (mkRShort y m d)) =
        some (fmtDate (y + 2018) m d)) ∧
    (∀ y m d : Nat, y < 10000 → m < 100 → d < 100 →
      convert_date_format (Cell.str (mkKanji y m d)) = some (fmtDate y m d)) ∧
    (∀ y m d : Nat, y < 10000 → m < 100 → d < 100 →
      convert_date_format (Cell.str (mkSlash y m d)) = some (fmtDate y m d)) ∧
    convert_date_format (Cell.str ['令', '和', '1', '年', '5', '月', '1', '日']) =
      some ['2', '0', '1', '9', '-', '0', '5', '-', '0', '1'] ∧
    convert_date_format
        (Cell.str ['令', '和', '6', '年', '1', '2', '月', '3', '1', '日']) =
      some ['2', '0', '2', '4', '-', '1', '2', '-', '3', '1'] ∧
    convert_date_format (Cell.str ['R', '6', '/', '1', '2', '/', '3', '1']) =
      some ['2', '0', '2', '4', '-', '1', '2', '-', '3', '1'] ∧
    convert_date_format (Cell.str ['2', '0', '2', '4', '年', '1', '月', '5', '日']) =
      some ['2', '0', '2', '4', '-', '0', '1', '-', '0', '5'] ∧
    convert_date_format (Cell.str ['2', '0', '2', '4', '/', '1', '/', '5']) =
      some ['2', '0', '2', '4', '-', '0', '1', '-', '0', '5'] := by
  refine ⟨?_, ?_, ?_, ?_, by decide, by decide, by decide, by decide, by decide⟩
  · intro y m d hy hm hd
    exact convert_str_of_body (List.cons_ne_nil _ _) (pyStrip_mkReiwaLong y m d)
      (convertBody_mkReiwaLongT hy hm hd [])
  · intro y m d hy hm hd
    exact convert_str_of_body (List.cons_ne_nil _ _) (pyStrip_mkRShort y m d)
      (convertBody_mkRShortT hy hm hd (Or.inr rfl))
  · intro y m d hy hm hd
    exact convert_str_of_body (List.cons_ne_nil _ _) (pyStrip_mkKanji y m d)
      (convertBody_mkKanjiT hy hm hd [])
  · intro y m d hy hm hd
    exact convert_str_of_body (List.cons_ne_nil _ _) (pyStrip_mkSlash y m d)
      (convertBody_mkSlashT hy hm hd (Or.inr rfl))

/-- C7 witness at the Reiwa short form R6 12 31. -/
theorem c7_fixed_pattern_conversions_witness :
    convert_date_format (Cell.str (mkRShort 6 12 31)) = some (fmtDate 2024 12 31) :=
  c7_fixed_pattern_conversions.2.1 6 12 31 (by decide) (by decide) (by decide)

/-- C8: empty, null and whitespace-only inputs and unparsable garbage all
normalize to the no-value result, and whenever the try block raises (the
fallback parser throws on input no pattern recognises) the exception is
caught and converted into the same no-value result, so the normalizer never
raises. -/
theorem c8_failure_inputs_no_raise :
    convert_date_format Cell.na = none ∧
    convert_date_format (Cell.str []) = none ∧
    (∀ s : List Char, (∀ c ∈ s, isSpace c = true) →
      convert_date_format (Cell.str s) = none) ∧
    convert_date_format
      (Cell.str ['n', 'o', 't', ' ', 'a', ' ', 'd', 'a', 't', 'e']) = none ∧
    (∀ s : List Char, canonicalShape (pyStrip s) = false →
      convertTry (pyStrip s) = .error () →
      convert_date_format (Cell.str s) = none) := by
  refine ⟨rfl, by simp [convert_date_format], ?_, by decide, ?_⟩
  · intro s h
    by_cases hs : s = []
    · simp [convert_date_format, hs]
    · simp only [convert_date_format]
      rw [if_neg hs, pyStrip_all_space h]
      decide
  · intro s hc he
    by_cases hs : s = []
    · simp [convert_date_format, hs]
    · simp only [convert_date_format]
      rw [if_neg hs]
      exact convertBody_of_error hc he

/-- C8 witness at a whitespace-only string and at garbage on which the try
block raises. -/
theorem c8_failure_inputs_no_raise_witness :
    ((∀ c ∈ ([' ', '\t'] : List Char), isSpace c = true) ∧
      convert_date_format (Cell.str [' ', '\t']) = none) ∧
    (canonicalShape (pyStrip ['x', 'y', 'z']) = false ∧
      convertTry (pyStrip ['x', 'y', 'z']) = .error () ∧
      convert_date_format (Cell.str ['x', 'y', 'z']) = none) :=
  ⟨⟨by decide, c8_failure_inputs_no_raise.2.2.1 _ (by decide)⟩,
   ⟨by decide, rfl,
    c8_failure_inputs_no_raise.2.2.2.2 _ (by decide) rfl⟩⟩

/-- C9 counterexample: a persisted entry with a canonical date but a subject
carrying a leading blank does not survive the round trip; the re-imported
subject is trimmed, so the accepted set differs from the original. -/
theorem c9_roundtrip_counterexample :
    (import_from_csv (exportImportFrame tblC9) []).1.accepted =
      [{ date := ['2', '0', '2', '4', '-', '0', '1', '-', '0', '5'],
         category := ['x'], subject := ['a'],
         amount := { man := 100, exp := 0 } }] ∧
    (import_from_csv (exportImportFrame tblC9) []).1.accepted ≠ tblC9 := by
  refine ⟨by decide, by decide⟩

lemma coerce_mk_rows (tbl : List Entry) :
    (tbl.map rowOfEntry).map (fun r => { r with amount := coerceCell r.amount }) =
      tbl.map rowOfEntry := by
  rw [List.map_map]
  exact List.map_congr_left fun e _ => rfl

/-- C9 amended: the export-reimport round trip restores the persisted set
exactly (ignoring the identity column) provided the set is nonempty, every
date is canonical, and every category and subject is untouched by trimming,
is not a missing-value sentinel, and does not read back as a number. -/
theorem c9_export_import_roundtrip (tbl tbl0 : List Entry) (hne : tbl ≠ [])
    (hg : ∀ e ∈ tbl, goodEntry e) :
    (import_from_csv (exportImportFrame tbl) tbl0).1.accepted = tbl := by
  have hrows := exportImportFrame_rows hne hg
  have hvalid : (validate_csv_format (exportImportFrame tbl)).1.valid = true := rfl
  have hred : (import_from_csv (exportImportFrame tbl) tbl0).1.accepted =
      (importLoop (validate_csv_format (exportImportFrame tbl)).2.rows 0 tbl0).1 := by
    simp only [import_from_csv]
    rw [if_pos hvalid]
  have hv2 : (validate_csv_format (exportImportFrame tbl)).2.rows =
      (exportImportFrame tbl).rows.map
        fun r => { r with amount := coerceCell r.amount } := rfl
  rw [hred, hv2, hrows, coerce_mk_rows]
  exact importLoop_good tbl hg 0 tbl0

/-- C9 amended, witness at a one-entry table. -/
theorem c9_export_import_roundtrip_witness :
    (import_from_csv (exportImportFrame
      [{ date := ['2', '0', '2', '4', '-', '0', '1', '-', '0', '5'],
         category := ['x'], subject := ['y'],
         amount := { man := 100, exp := 0 } }]) []).1.accepted =
      [{ date := ['2', '0', '2', '4', '-', '0', '1', '-', '0', '5'],
         category := ['x'], subject := ['y'],
         amount := { man := 100, exp := 0 } }] :=
  c9_export_import_roundtrip _ [] (by decide) (by decide)

/-- C10: the pattern regexes are anchored only at the start, so an input
beginning with a prefix matching one of the four fixed patterns converts
that greedily matched prefix and silently ignores all trailing characters;
in particular the three concrete conversions hold, among them the day 59
read out of 599. -/
theorem c10_prefix_match_ignores_trailing :
    (∀ (y m d : Nat) (rest : List Char), y < 100 → m < 100 → d < 100 →
      pyStrip (mkReiwaLongT y m d rest) = mkReiwaLongT y m d rest →
      convert_date_format (Cell.str (mkReiwaLongT y m d rest)) =
        some (fmtDate (y + 2018) m d)) ∧
    (∀ (y m d : Nat) (rest : List Char), y < 100 → m < 100 → d < 100 →
      (10 ≤ d ∨ boundaryB rest = true) →
      pyStrip (mkRShortT y m d rest) = mkRShortT y m d rest →
      convert_date_format (Cell.str (mkRShortT y m d rest)) =
        some (fmtDate (y + 2018) m d)) ∧
    (∀ (y m d : Nat) (rest : List Char), y < 10000 → m < 100 → d < 100 →
      pyStrip (mkKanjiT y m d rest) = mkKanjiT y m d rest →
      convert_date_format (Cell.str (mkKanjiT y m d rest)) =
        some (fmtDate y m d)) ∧
    (∀ (y m d : Nat) (rest : List Char), y < 10000 → m < 100 → d < 100 →
      (10 ≤ d ∨ boundaryB rest = true) →
      pyStrip (mkSlashT y m d rest) = mkSlashT y m d rest →
      convert_date_format (Cell.str (mkSlashT y m d rest)) =
        some (fmtDate y m d)) ∧
    convert_date_format
        (Cell.str ['2', '0', '2', '4', '/', '1', '/', '5', ' ', '1', '2', ':', '0', '0']) =
      some ['2', '0', '2', '4', '-', '0', '1', '-', '0', '5'] ∧
    convert_date_format
        (Cell.str ['R', '6', '/', '1', '2', '/', '3', '1', 'e', 'x', 't', 'r', 'a']) =
      some ['2', '0', '2', '4', '-', '1', '2', '-', '3', '1'] ∧
    convert_date_format
        (Cell.str ['2', '0', '2', '4', '/', '1', '/', '5', '9', '9']) =
      some ['2', '0', '2', '4', '-', '0', '1', '-', '5', '9'] := by
  refine ⟨?_, ?_, ?_, ?_, by decide, by decide, by decide⟩
  · intro y m d rest hy hm hd hstrip
    exact convert_str_of_body (List.cons_ne_nil _ _) hstrip
      (convertBody_mkReiwaLongT hy hm hd rest)
  · intro y m d rest hy hm hd hb hstrip
    exact convert_str_of_body (List.cons_ne_nil _ _) hstrip
      (convertBody_mkRShortT hy hm hd hb)
  · intro y m d rest hy hm hd hstrip
    exact convert_str_of_body (List.cons_ne_nil _ _) hstrip
      (convertBody_mkKanjiT hy hm hd rest)
  · intro y m d rest hy hm hd hb hstrip
    exact convert_str_of_body (List.cons_ne_nil _ _) hstrip
      (convertBody_mkSlashT hy hm hd hb)

/-- C10 witness: the slash form with day group 59 and trailing digit 9. -/
theorem c10_prefix_match_ignores_trailing_witness :
    convert_date_format (Cell.str (mkSlashT 2024 1 59 ['9'])) =
      some (fmtDate 2024 1 59) :=
  c10_prefix_match_ignores_trailing.2.2.2.1 2024 1 59 ['9'] (by decide) (by decide)
    (by decide) (Or.inl (by decide)) (by decide)

end Kakeibo
